import Mathlib

/-!
Verification of the q-one-way commitment scheme (`qoneway` package) and the
Damgard–Fujisaki equality sigma protocol (`df` package) of emmyzkp/crypto.

Group elements are natural numbers reduced modulo the group modulus `N`;
committed values are integers (Go `big.Int`).  Randomness drawn inside the Go
functions (`GetRandomElement`, `GetRandomInt`, `rand.Prime`) is modelled by
passing the drawn value as an explicit argument.  Stateful methods on pointer
receivers are modelled as functions from the state to a result paired with the
updated state.
-/

namespace rsa

/-- Modelled from the spec: the external group collaborator (`rsa.Group`, whose
source is not part of this package) exposes modular multiplication. -/
def Group.Mul (N x y : ℕ) : ℕ := x * y % N

/-- Modelled from the spec: modular exponentiation with a natural exponent. -/
def Group.Exp (N x : ℕ) (e : ℕ) : ℕ := x ^ e % N

/-- Modelled from the spec: modular inverse.  Defined as the unique
`y ∈ [0, N)` with `x * y ≡ 1 (mod N)`, which exists exactly when `x` is
coprime to `N` (the only case the scheme uses); otherwise `0`. -/
def Group.Inv (N x : ℕ) : ℕ :=
  ((List.range N).find? (fun y => x * y % N == 1)).getD 0

/-- Modelled from the spec: modular exponentiation with a `big.Int` exponent;
a negative exponent exponentiates the modular inverse of the base, as
`big.Int.Exp` does. -/
def Group.ZExp (N x : ℕ) (e : ℤ) : ℕ :=
  if e < 0 then Group.Exp N (Group.Inv N x) (-e).toNat else Group.Exp N x e.toNat

/-- Modelled from the spec: group membership for the RSA group is coprimality
with the modulus (`gcd(y, n) = 1`). -/
def Group.IsElementInGroup (N y : ℕ) : Bool := Nat.gcd y N == 1

end rsa

namespace qoneway

/-- RSA-based q-one-way structure: the group modulus `N` and the trapdoor
exponent `Q` (`rsa.E` is set to `Q` by `NewRSABased`). -/
structure RSABased where
  N : ℕ
  Q : ℕ
deriving DecidableEq, Repr

/-- `Homomorphism` is the q-one-way homomorphism `f : x ↦ x^Q mod N`. -/
def RSABased.Homomorphism (g : RSABased) (x : ℕ) : ℕ := rsa.Group.Exp g.N x g.Q

/-- `HomomorphismInv` for the RSA-based q-one-way is the identity. -/
def RSABased.HomomorphismInv (_ : RSABased) (y : ℕ) : ℕ := y

/-- `NewRSABased`: the group modulus `N` (from `rsa.NewGroup(bitLen)`) and the
random prime `q` (from `rand.Prime(bitLen+1)`) are passed in as the outcomes of
the randomized constructors.  The function errors iff `q.Cmp(rsa.N) < 1`,
i.e. iff `q ≤ N`; otherwise `q` is installed as the exponent. -/
def NewRSABased (N q : ℕ) : Except String RSABased :=
  if q ≤ N then Except.error "Q must be > N" else Except.ok ⟨N, q⟩

/-- Commitment-scheme committer: embedded q-one-way instance, the receiver's
public base `Y`, and the pending decommitment pair (`nil` before any
successful `GetCommitMsg`). -/
structure Committer where
  g : RSABased
  Y : ℕ
  committedValue : Option ℤ
  r : Option ℕ
deriving DecidableEq, Repr

/-- `NewCommitter` rejects a base `y` that is not a group element. -/
def NewCommitter (qOneWay : RSABased) (y : ℕ) : Except String Committer :=
  if rsa.Group.IsElementInGroup qOneWay.N y then
    Except.ok ⟨qOneWay, y, none, none⟩
  else Except.error "y is not valid"

/-- `computeCommitment`: `Y^a * r^Q mod N`, where `r` is the random group
element drawn inside the Go function, passed here as an argument. -/
def Committer.computeCommitment (c : Committer) (a : ℤ) (r : ℕ) : ℕ :=
  rsa.Group.Mul c.g.N (rsa.Group.ZExp c.g.N c.Y a) (c.g.Homomorphism r)

/-- `GetCommitMsg`: errors iff `a.Cmp(Q) != -1`, i.e. iff `¬ a < Q`; on
success stores `(a, r)` and returns the commitment. -/
def Committer.GetCommitMsg (c : Committer) (a : ℤ) (r : ℕ) :
    Except String ℕ × Committer :=
  if a < (c.g.Q : ℤ) then
    (Except.ok (c.computeCommitment a r),
      { c with committedValue := some a, r := some r })
  else
    (Except.error "the committed value needs to be < Q", c)

/-- `GetDecommitMsg` returns the stored pair. -/
def Committer.GetDecommitMsg (c : Committer) : Option ℤ × Option ℕ :=
  (c.committedValue, c.r)

/-- `GetCommitmentToMultiplication(a, b, u)`: computes `c = a*b mod Q`, a
fresh commitment `C` to it with blinding `o` (the random element drawn inside
`computeCommitment`, passed as an argument), `j = (a*b - c) / Q`, and
`t = o * (u^a)⁻¹ * HomomorphismInv((Y^j)⁻¹)`.  No field of the committer is
assigned, so the state is returned unchanged. -/
def Committer.GetCommitmentToMultiplication (c : Committer) (a b : ℤ)
    (u : ℕ) (o : ℕ) : (ℕ × ℕ × ℕ) × Committer :=
  let ab := a * b
  let cMod := ab % (c.g.Q : ℤ)
  let C := c.computeCommitment cMod o
  let j := (ab - cMod) / (c.g.Q : ℤ)
  let uToa := rsa.Group.ZExp c.g.N u a
  let uToaInv := rsa.Group.Inv c.g.N uToa
  let t0 := rsa.Group.Mul c.g.N o uToaInv
  let yToj := rsa.Group.ZExp c.g.N c.Y j
  let yTojInv := rsa.Group.Inv c.g.N yToj
  let t1 := c.g.HomomorphismInv yTojInv
  let t := rsa.Group.Mul c.g.N t0 t1
  ((C, o, t), c)

/-- Commitment receiver: q-one-way instance, secret preimage `x`, public base
`Y = f(x)`, and the last received commitment (`nil` until `SetCommitment`). -/
structure Receiver where
  g : RSABased
  Y : ℕ
  x : ℕ
  commitment : Option ℕ
deriving DecidableEq, Repr

/-- `NewReceiver`: the random secret `x` is passed in; `Y = f(x)`. -/
def NewReceiver (qOneWay : RSABased) (x : ℕ) : Receiver :=
  ⟨qOneWay, qOneWay.Homomorphism x, x, none⟩

/-- `SetCommitment` stores an incoming commitment, overwriting any prior one. -/
def Receiver.SetCommitment (rc : Receiver) (c : ℕ) : Receiver :=
  { rc with commitment := some c }

/-- `CheckDecommitment(R, a)` recomputes `Y^a * R^Q mod N` and compares it with
the stored commitment. -/
def Receiver.CheckDecommitment (rc : Receiver) (R : ℕ) (a : ℤ) : Bool :=
  let t1 := rsa.Group.ZExp rc.g.N rc.Y a
  let t2 := rsa.Group.Exp rc.g.N R rc.g.Q
  let c := rsa.Group.Mul rc.g.N t1 t2
  some c == rc.commitment

end qoneway

namespace df

/-- Modelled from the spec: the Damgard–Fujisaki committer (`df.Committer`,
whose source is not part of this package).  It carries the special-RSA modulus
`n` (`QRSpecialRSA.N`), the two bases `G` and `H`, the bound parameters `T`
and `B` used to size the prover's randomness, and the stored decommitment
pair (committed value, blinding factor). -/
structure Committer where
  n : ℕ
  G : ℕ
  H : ℕ
  T : ℕ
  B : ℕ
  committedValue : ℕ
  r : ℕ
deriving DecidableEq, Repr

/-- Modelled from the spec: `ComputeCommit(a, r) = G^a * H^r mod n`. -/
def Committer.ComputeCommit (c : Committer) (a r : ℕ) : ℕ :=
  c.G ^ a * c.H ^ r % c.n

/-- Modelled from the spec: returns the stored (value, blinding) pair. -/
def Committer.GetDecommitMsg (c : Committer) : ℕ × ℕ :=
  (c.committedValue, c.r)

/-- Modelled from the spec: the Damgard–Fujisaki receiver with its modulus,
bases, and the `Commitment` field holding the commitment it received. -/
structure Receiver where
  n : ℕ
  G : ℕ
  H : ℕ
  Commitment : ℕ
deriving DecidableEq, Repr

/-- Modelled from the spec: the receiver's `ComputeCommit(a, r) = G^a * H^r mod n`. -/
def Receiver.ComputeCommit (rc : Receiver) (a r : ℕ) : ℕ :=
  rc.G ^ a * rc.H ^ r % rc.n

/-- Equality prover state: the two committers, the challenge-space size, and
the masking randomness stored by `GetProofRandomData`. -/
structure EqualityProver where
  committer1 : Committer
  committer2 : Committer
  challengeSpaceSize : ℕ
  r1 : Option ℕ
  r21 : Option ℕ
  r22 : Option ℕ
deriving DecidableEq, Repr

/-- `NewEqualityProver` leaves the randomness fields unset. -/
def NewEqualityProver (committer1 committer2 : Committer)
    (challengeSpaceSize : ℕ) : EqualityProver :=
  ⟨committer1, committer2, challengeSpaceSize, none, none, none⟩

/-- `GetProofRandomData`: the three random draws `r1`, `r21`, `r22` (from
`common.GetRandomInt` on the bounds computed in the function) are passed as
arguments; the function stores them and returns the pair
`(ComputeCommit₁(r1, r21), ComputeCommit₂(r1, r22))`. -/
def EqualityProver.GetProofRandomData (p : EqualityProver)
    (r1 r21 r22 : ℕ) : (ℕ × ℕ) × EqualityProver :=
  let t1 := p.committer1.ComputeCommit r1 r21
  let t2 := p.committer2.ComputeCommit r1 r22
  ((t1, t2), { p with r1 := some r1, r21 := some r21, r22 := some r22 })

/-- `GetProofData(challenge)`: over the integers,
`s1 = r1 + challenge*a`, `s21 = r21 + challenge*rr1`,
`s22 = r22 + challenge*rr2`, where `(a, rr1)` and `(_, rr2)` are the two
committers' stored decommitment pairs.  All quantities are nonnegative, so the
arithmetic is carried out in `ℕ`.  Using the randomness before
`GetProofRandomData` has stored it would dereference `nil` in the Go code,
modelled as `none`. -/
def EqualityProver.GetProofData (p : EqualityProver) (challenge : ℕ) :
    Option (ℕ × ℕ × ℕ) :=
  match p.r1, p.r21, p.r22 with
  | some r1, some r21, some r22 =>
    let a := p.committer1.GetDecommitMsg.1
    let rr1 := p.committer1.GetDecommitMsg.2
    let rr2 := p.committer2.GetDecommitMsg.2
    some (challenge * a + r1, challenge * rr1 + r21, challenge * rr2 + r22)
  | _, _, _ => none

/-- Equality verifier state: two receivers, the challenge-space size, and the
challenge and random-commitment messages received so far (`nil` until set). -/
structure EqualityVerifier where
  receiver1 : Receiver
  receiver2 : Receiver
  challengeSpaceSize : ℕ
  challenge : Option ℕ
  proofRandomData1 : Option ℕ
  proofRandomData2 : Option ℕ
deriving DecidableEq, Repr

/-- `NewEqualityVerifier` leaves challenge and random data unset. -/
def NewEqualityVerifier (receiver1 receiver2 : Receiver)
    (challengeSpaceSize : ℕ) : EqualityVerifier :=
  ⟨receiver1, receiver2, challengeSpaceSize, none, none, none⟩

/-- `SetProofRandomData` stores the prover's two random commitments. -/
def EqualityVerifier.SetProofRandomData (v : EqualityVerifier)
    (proofRandomData1 proofRandomData2 : ℕ) : EqualityVerifier :=
  { v with proofRandomData1 := some proofRandomData1,
           proofRandomData2 := some proofRandomData2 }

/-- `GetChallenge`: draws a challenge uniformly from
`[0, 2^challengeSpaceSize)` (the draw is passed as an argument), stores and
returns it. -/
def EqualityVerifier.GetChallenge (v : EqualityVerifier) (draw : ℕ) :
    ℕ × EqualityVerifier :=
  (draw, { v with challenge := some draw })

/-- `SetChallenge` stores an externally supplied (Fiat–Shamir) challenge. -/
def EqualityVerifier.SetChallenge (v : EqualityVerifier) (challenge : ℕ) :
    EqualityVerifier :=
  { v with challenge := some challenge }

/-- `Verify(s1, s21, s22)`: checks
`proofRandomData_i * Commitment_i^challenge mod n_i = ComputeCommit_i(s1, s2i)`
for `i = 1, 2`.  Dereferencing an unset challenge or random-data field would
crash the Go code, modelled as `none`. -/
def EqualityVerifier.Verify (v : EqualityVerifier) (s1 s21 s22 : ℕ) :
    Option Bool :=
  match v.challenge, v.proofRandomData1, v.proofRandomData2 with
  | some ch, some prd1, some prd2 =>
    let left1 := prd1 * (v.receiver1.Commitment ^ ch % v.receiver1.n) %
      v.receiver1.n
    let right1 := v.receiver1.ComputeCommit s1 s21
    let left2 := prd2 * (v.receiver2.Commitment ^ ch % v.receiver2.n) %
      v.receiver2.n
    let right2 := v.receiver2.ComputeCommit s1 s22
    some (left1 == right1 && left2 == right2)
  | _, _, _ => none

end df

/-! ### Theorems -/

/-- C10: `GetDecommitMsg` on a freshly constructed `Committer`, before any
successful `GetCommitMsg`, returns the uninitialized pair `(nil, nil)`; the
result type offers no error signal. -/
theorem newCommitter_getDecommitMsg_nil (g : qoneway.RSABased) (y : ℕ)
    (c : qoneway.Committer) (h : qoneway.NewCommitter g y = Except.ok c) :
    c.GetDecommitMsg = (none, none) := by
  unfold qoneway.NewCommitter at h
  split at h
  · cases h
    rfl
  · cases h

/-- Witness for C10 at a concrete instance: `N = 15`, `Q = 5`, base `y = 2`. -/
theorem newCommitter_getDecommitMsg_nil_witness :
    (({ g := ⟨15, 5⟩, Y := 2, committedValue := none, r := none } :
      qoneway.Committer).GetDecommitMsg) = (none, none) :=
  newCommitter_getDecommitMsg_nil ⟨15, 5⟩ 2 _ rfl

/-- C9: `GetCommitmentToMultiplication` performs no assignment to the
committer's fields: the state it returns is the input state, so a subsequent
`GetDecommitMsg` still returns the pair from the last `GetCommitMsg`. -/
theorem getCommitmentToMultiplication_frame (c : qoneway.Committer)
    (a b : ℤ) (u o : ℕ) :
    (c.GetCommitmentToMultiplication a b u o).2 = c ∧
    ((c.GetCommitmentToMultiplication a b u o).2).GetDecommitMsg =
      c.GetDecommitMsg :=
  ⟨rfl, rfl⟩

/-- C4: `CheckDecommitment(R, a)` returns the boolean comparison of
`Y^a * R^Q mod N` with the commitment most recently stored by
`SetCommitment` (the earlier stored value is overwritten). -/
theorem checkDecommitment_iff (rc : qoneway.Receiver) (c0 c : ℕ)
    (R : ℕ) (a : ℤ) :
    ((rc.SetCommitment c0).SetCommitment c).CheckDecommitment R a = true ↔
      rsa.Group.Mul rc.g.N (rsa.Group.ZExp rc.g.N rc.Y a)
        (rsa.Group.Exp rc.g.N R rc.g.Q) = c := by
  simp [qoneway.Receiver.CheckDecommitment, qoneway.Receiver.SetCommitment]

/-- C5 as stated is refuted: `GetCommitMsg` only rejects `a ≥ Q`; at the
negative committed value `a = -1 < 0` it succeeds instead of returning a
`RangeError`. -/
theorem getCommitMsg_negative_succeeds :
    (-1 : ℤ) < 0 ∧
    ((({ g := ⟨15, 5⟩, Y := 2, committedValue := none, r := none } :
      qoneway.Committer).GetCommitMsg (-1) 2).1.isOk = true) := by
  exact ⟨by decide, rfl⟩

/-- C5 amended: `GetCommitMsg(a)` returns an error exactly when `a ≥ Q`; it
succeeds for every `a < Q`, including negative `a`. -/
theorem getCommitMsg_isOk_iff (c : qoneway.Committer) (a : ℤ) (r : ℕ) :
    ((c.GetCommitMsg a r).1.isOk = true) ↔ a < (c.g.Q : ℤ) := by
  unfold qoneway.Committer.GetCommitMsg
  split
  all_goals simp_all [Except.isOk, Except.toBool]

/-- C6: on success (`a < Q`) `GetCommitMsg` returns the commitment
`Y^a * f(r) mod N` for the fresh random `r` and overwrites the stored
decommitment pair with `(a, r)`, as read back by `GetDecommitMsg`. -/
theorem getCommitMsg_success (c : qoneway.Committer) (a : ℤ) (r : ℕ)
    (h : a < (c.g.Q : ℤ)) :
    c.GetCommitMsg a r =
      (Except.ok (rsa.Group.Mul c.g.N (rsa.Group.ZExp c.g.N c.Y a)
          (c.g.Homomorphism r)),
        { c with committedValue := some a, r := some r }) ∧
    ((c.GetCommitMsg a r).2).GetDecommitMsg = (some a, some r) := by
  unfold qoneway.Committer.GetCommitMsg
  rw [if_pos h]
  exact ⟨rfl, rfl⟩

/-- Witness for C6: committing to `4` with blinding `2` under `N = 15`,
`Q = 5`, base `Y = 2`, overwriting a previously stored pair `(1, 3)`. -/
theorem getCommitMsg_success_witness :
    (({ g := ⟨15, 5⟩, Y := 2, committedValue := some 1, r := some 3 } :
        qoneway.Committer).GetCommitMsg 4 2 =
      (Except.ok (rsa.Group.Mul 15 (rsa.Group.ZExp 15 2 4)
          (qoneway.RSABased.Homomorphism ⟨15, 5⟩ 2)),
        { g := ⟨15, 5⟩, Y := 2, committedValue := some 4, r := some 2 }) ∧
    ((({ g := ⟨15, 5⟩, Y := 2, committedValue := some 1, r := some 3 } :
        qoneway.Committer).GetCommitMsg 4 2).2).GetDecommitMsg =
      (some 4, some 2)) :=
  getCommitMsg_success _ 4 2 (by decide)

/-- C8: a failing `GetCommitMsg` (committed value out of range) returns the
state unchanged: after a successful commit to `a1`, a failing call with
`a2 ≥ Q` reports an error and `GetDecommitMsg` still returns `(a1, r1)`. -/
theorem getCommitMsg_failure_frame (c : qoneway.Committer)
    (a1 : ℤ) (r1 : ℕ) (a2 : ℤ) (r2 : ℕ)
    (h1 : a1 < (c.g.Q : ℤ)) (h2 : ¬ a2 < (c.g.Q : ℤ)) :
    (((c.GetCommitMsg a1 r1).2).GetCommitMsg a2 r2).1.isOk = false ∧
    (((c.GetCommitMsg a1 r1).2).GetCommitMsg a2 r2).2 =
      (c.GetCommitMsg a1 r1).2 ∧
    ((((c.GetCommitMsg a1 r1).2).GetCommitMsg a2 r2).2).GetDecommitMsg =
      (some a1, some r1) := by
  unfold qoneway.Committer.GetCommitMsg
  rw [if_pos h1]
  simp only []
  rw [if_neg h2]
  exact ⟨rfl, rfl, rfl⟩

/-- Witness for C8: commit to `4` then fail committing to `7 ≥ Q = 5`. -/
theorem getCommitMsg_failure_frame_witness :
    (((({ g := ⟨15, 5⟩, Y := 2, committedValue := none, r := none } :
        qoneway.Committer).GetCommitMsg 4 2).2).GetCommitMsg 7 3).1.isOk =
      false ∧
    (((({ g := ⟨15, 5⟩, Y := 2, committedValue := none, r := none } :
        qoneway.Committer).GetCommitMsg 4 2).2).GetCommitMsg 7 3).2 =
      (({ g := ⟨15, 5⟩, Y := 2, committedValue := none, r := none } :
        qoneway.Committer).GetCommitMsg 4 2).2 ∧
    ((((({ g := ⟨15, 5⟩, Y := 2, committedValue := none, r := none } :
        qoneway.Committer).GetCommitMsg 4 2).2).GetCommitMsg 7 3).2).GetDecommitMsg =
      (some 4, some 2) :=
  getCommitMsg_failure_frame _ 4 2 7 3 (by decide) (by decide)

/-- C3: commit/decommit round trip: if a committer sharing the receiver's
q-one-way instance and base successfully commits to `a ∈ [0, Q)`, the
receiver stores the commitment, and the committer reveals the stored pair,
then `CheckDecommitment` accepts. -/
theorem commit_decommit_roundtrip (rc : qoneway.Receiver)
    (c : qoneway.Committer) (hg : c.g = rc.g) (hY : c.Y = rc.Y)
    (a : ℕ) (r : ℕ) (com : ℕ) (c1 : qoneway.Committer)
    (h : c.GetCommitMsg (a : ℤ) r = (Except.ok com, c1)) :
    c1.GetDecommitMsg = (some (a : ℤ), some r) ∧
    (rc.SetCommitment com).CheckDecommitment r ((a : ℕ) : ℤ) = true := by
  unfold qoneway.Committer.GetCommitMsg at h
  split at h
  · rw [Prod.mk.injEq, Except.ok.injEq] at h
    obtain ⟨rfl, rfl⟩ := h
    refine ⟨rfl, ?_⟩
    simp [qoneway.Receiver.CheckDecommitment, qoneway.Receiver.SetCommitment,
      qoneway.Committer.computeCommitment, qoneway.RSABased.Homomorphism,
      hg, hY]
  · rw [Prod.mk.injEq] at h
    exact absurd h.1 (by simp)

/-- Witness for C3 at `N = 15`, `Q = 5`, `Y = 2`, `a = 3`, `r = 2`. -/
theorem commit_decommit_roundtrip_witness :
    (({ g := ⟨15, 5⟩, Y := 2, committedValue := some 3, r := some 2 } :
      qoneway.Committer).GetDecommitMsg) = (some ((3 : ℕ) : ℤ), some 2) ∧
    ((({ g := ⟨15, 5⟩, Y := 2, x := 0, commitment := none } :
      qoneway.Receiver).SetCommitment 1).CheckDecommitment 2 ((3 : ℕ) : ℤ)) =
      true :=
  commit_decommit_roundtrip
    { g := ⟨15, 5⟩, Y := 2, x := 0, commitment := none }
    { g := ⟨15, 5⟩, Y := 2, committedValue := none, r := none }
    rfl rfl 3 2 1 _ rfl

/-- C7: `NewRSABased` (with the generated prime `q` and group modulus `N`
passed as the randomized outcomes) returns the `ParameterError` exactly when
`q ≤ N`; on success the instance is `⟨N, q⟩`, whose exponent `q` is prime and
exceeds `N`, and whose homomorphism is `x ↦ x^q mod N`. -/
theorem newRSABased_spec (N q : ℕ) (hq : Nat.Prime q) :
    (qoneway.NewRSABased N q = Except.error "Q must be > N" ↔ q ≤ N) ∧
    (N < q → qoneway.NewRSABased N q = Except.ok ⟨N, q⟩) ∧
    Nat.Prime q ∧
    qoneway.RSABased.Homomorphism ⟨N, q⟩ = fun x => x ^ q % N := by
  refine ⟨?_, ?_, hq, rfl⟩
  · unfold qoneway.NewRSABased
    split
    · simpa
    · simp only [reduceCtorEq, false_iff]
      omega
  · intro hlt
    unfold qoneway.NewRSABased
    rw [if_neg (by omega)]

/-- Witness for C7 at `N = 3`, `q = 5`. -/
theorem newRSABased_spec_witness :
    (qoneway.NewRSABased 3 5 = Except.error "Q must be > N" ↔ 5 ≤ 3) ∧
    ((3 : ℕ) < 5 → qoneway.NewRSABased 3 5 = Except.ok ⟨3, 5⟩) ∧
    Nat.Prime 5 ∧
    qoneway.RSABased.Homomorphism ⟨3, 5⟩ = fun x => x ^ 5 % 3 :=
  newRSABased_spec 3 5 (by norm_num)

/-! ### Bridging lemmas between the modular arithmetic on `ℕ` and `ZMod N` -/

theorem natCast_groupMul (N x y : ℕ) :
    ((rsa.Group.Mul N x y : ℕ) : ZMod N) = (x : ZMod N) * (y : ZMod N) := by
  show (((x * y % N : ℕ)) : ZMod N) = _
  rw [ZMod.natCast_mod]
  push_cast
  ring

theorem natCast_groupExp (N x e : ℕ) :
    ((rsa.Group.Exp N x e : ℕ) : ZMod N) = (x : ZMod N) ^ e := by
  show (((x ^ e % N : ℕ)) : ZMod N) = _
  rw [ZMod.natCast_mod]
  push_cast
  ring

theorem zexp_ofNat (N x e : ℕ) :
    rsa.Group.ZExp N x ((e : ℕ) : ℤ) = rsa.Group.Exp N x e := by
  simp [rsa.Group.ZExp]

theorem coprime_mod_left {x N : ℕ} (h : Nat.Coprime x N) :
    Nat.Coprime (x % N) N := by
  rwa [Nat.Coprime, ← Nat.gcd_rec, Nat.gcd_comm]

theorem groupInv_mul_cancel (N x : ℕ) (hN : 1 < N) (h : Nat.Coprime x N) :
    (x : ZMod N) * ((rsa.Group.Inv N x : ℕ) : ZMod N) = 1 := by
  haveI : NeZero N := ⟨by omega⟩
  have hunit : IsUnit (x : ZMod N) := (ZMod.isUnit_iff_coprime x N).mpr h
  have hy0cast : ((((x : ZMod N)⁻¹).val : ℕ) : ZMod N) = (x : ZMod N)⁻¹ := by
    rw [ZMod.natCast_val, ZMod.cast_id]
  have hy0lt : ((x : ZMod N)⁻¹).val < N := ZMod.val_lt _
  have hprop : x * ((x : ZMod N)⁻¹).val % N = 1 := by
    have h1 : ((x * ((x : ZMod N)⁻¹).val : ℕ) : ZMod N) = ((1 : ℕ) : ZMod N) := by
      push_cast
      rw [hy0cast]
      exact ZMod.mul_inv_of_unit _ hunit
    have h2 := (ZMod.natCast_eq_natCast_iff' _ _ _).mp h1
    rwa [Nat.mod_eq_of_lt hN] at h2
  rcases hfind : (List.range N).find? (fun y => x * y % N == 1) with _ | z
  · exfalso
    have hnone := List.find?_eq_none.mp hfind _ (List.mem_range.mpr hy0lt)
    simp [hprop] at hnone
  · have hz : x * z % N = 1 := by
      have hp := List.find?_some hfind
      simpa using hp
    have hcast : ((x * z : ℕ) : ZMod N) = ((1 : ℕ) : ZMod N) := by
      apply (ZMod.natCast_eq_natCast_iff' _ _ _).mpr
      rw [hz, Nat.mod_eq_of_lt hN]
    have hgoal : (x : ZMod N) * (z : ZMod N) = 1 := by
      push_cast at hcast
      exact hcast
    rw [rsa.Group.Inv, hfind]
    simpa using hgoal

theorem zmod_mult_core {N : ℕ} (y u o iu iy : ZMod N) (ca j Q a b : ℕ)
    (hab : a * b = ca + j * Q) (hui : u ^ a * iu = 1) (hyi : y ^ j * iy = 1) :
    y ^ ca * o ^ Q = (y ^ b * u ^ Q) ^ a * (o * iu * iy) ^ Q := by
  have hy : y ^ (a * b) = y ^ ca * (y ^ j) ^ Q := by rw [hab, pow_add, pow_mul]
  calc y ^ ca * o ^ Q
      = y ^ ca * o ^ Q * ((u ^ a * iu) ^ Q * (y ^ j * iy) ^ Q) := by
        rw [hui, hyi]; ring
    _ = (y ^ ca * (y ^ j) ^ Q) * (u ^ a) ^ Q * (o ^ Q * iu ^ Q * iy ^ Q) := by
        ring
    _ = y ^ (a * b) * (u ^ a) ^ Q * (o ^ Q * iu ^ Q * iy ^ Q) := by rw [hy]
    _ = (y ^ b * u ^ Q) ^ a * (o * iu * iy) ^ Q := by ring

/-- C2: multiplication relation.  If `B = Y^b * f(u) mod N` is the commitment
to `b` with blinding `u`, then `GetCommitmentToMultiplication(a, b, u)`
returns `(C, o, t)` where `C` opens to `a*b mod Q` with blinding `o` under
`CheckDecommitment` (for a receiver sharing the instance and base) and
`C = B^a * f(t) mod N`. -/
theorem getCommitmentToMultiplication_spec
    (c : qoneway.Committer) (rc : qoneway.Receiver)
    (hrg : rc.g = c.g) (hrY : rc.Y = c.Y)
    (a b u o B : ℕ)
    (hN : 1 < c.g.N) (hQ : 0 < c.g.Q)
    (ha : a < c.g.Q) (hb : b < c.g.Q)
    (hu : Nat.Coprime u c.g.N) (hY : Nat.Coprime c.Y c.g.N)
    (hB : B = c.computeCommitment (b : ℤ) u) :
    ((c.GetCommitmentToMultiplication (a : ℤ) (b : ℤ) u o).1.2.1 = o) ∧
    ((rc.SetCommitment
        ((c.GetCommitmentToMultiplication (a : ℤ) (b : ℤ) u o).1.1)).CheckDecommitment
        o ((a * b % c.g.Q : ℕ) : ℤ) = true) ∧
    ((c.GetCommitmentToMultiplication (a : ℤ) (b : ℤ) u o).1.1 =
      rsa.Group.Mul c.g.N (rsa.Group.Exp c.g.N B a)
        (c.g.Homomorphism
          ((c.GetCommitmentToMultiplication (a : ℤ) (b : ℤ) u o).1.2.2))) := by
  have hQz : ((c.g.Q : ℕ) : ℤ) ≠ 0 := by exact_mod_cast hQ.ne'
  have hcm : ((a : ℤ) * (b : ℤ)) % ((c.g.Q : ℕ) : ℤ) =
      ((a * b % c.g.Q : ℕ) : ℤ) := by push_cast; rfl
  have hj : (((a : ℤ) * (b : ℤ)) - ((a * b % c.g.Q : ℕ) : ℤ)) / ((c.g.Q : ℕ) : ℤ) =
      ((a * b / c.g.Q : ℕ) : ℤ) := by
    have hnat := Nat.mod_add_div' (a * b) c.g.Q
    have hz : ((a * b % c.g.Q : ℕ) : ℤ) + ((a * b / c.g.Q : ℕ) : ℤ) * ((c.g.Q : ℕ) : ℤ) =
        ((a * b : ℕ) : ℤ) := by exact_mod_cast hnat
    have h1 : ((a : ℤ) * (b : ℤ)) - ((a * b % c.g.Q : ℕ) : ℤ) =
        ((a * b / c.g.Q : ℕ) : ℤ) * ((c.g.Q : ℕ) : ℤ) := by
      push_cast at hz ⊢
      linarith
    rw [h1, Int.mul_ediv_cancel _ hQz]
  have eC : (c.GetCommitmentToMultiplication (a : ℤ) (b : ℤ) u o).1.1 =
      c.computeCommitment (((a : ℤ) * (b : ℤ)) % ((c.g.Q : ℕ) : ℤ)) o := rfl
  have eO : (c.GetCommitmentToMultiplication (a : ℤ) (b : ℤ) u o).1.2.1 = o := rfl
  have eT : (c.GetCommitmentToMultiplication (a : ℤ) (b : ℤ) u o).1.2.2 =
      rsa.Group.Mul c.g.N
        (rsa.Group.Mul c.g.N o (rsa.Group.Inv c.g.N (rsa.Group.ZExp c.g.N u (a : ℤ))))
        (c.g.HomomorphismInv (rsa.Group.Inv c.g.N (rsa.Group.ZExp c.g.N c.Y
          ((((a : ℤ) * (b : ℤ)) - ((a : ℤ) * (b : ℤ)) % ((c.g.Q : ℕ) : ℤ)) /
            ((c.g.Q : ℕ) : ℤ))))) := rfl
  rw [hcm] at eC
  rw [hcm, hj] at eT
  have eC' : (c.GetCommitmentToMultiplication (a : ℤ) (b : ℤ) u o).1.1 =
      rsa.Group.Mul c.g.N (rsa.Group.Exp c.g.N c.Y (a * b % c.g.Q))
        (rsa.Group.Exp c.g.N o c.g.Q) := by
    rw [eC]
    unfold qoneway.Committer.computeCommitment qoneway.RSABased.Homomorphism
    rw [zexp_ofNat]
  have eT' : (c.GetCommitmentToMultiplication (a : ℤ) (b : ℤ) u o).1.2.2 =
      rsa.Group.Mul c.g.N
        (rsa.Group.Mul c.g.N o (rsa.Group.Inv c.g.N (rsa.Group.Exp c.g.N u a)))
        (rsa.Group.Inv c.g.N (rsa.Group.Exp c.g.N c.Y (a * b / c.g.Q))) := by
    rw [eT]
    unfold qoneway.RSABased.HomomorphismInv
    rw [zexp_ofNat, zexp_ofNat]
  refine ⟨eO, ?_, ?_⟩
  · rw [eC']
    simp only [qoneway.Receiver.SetCommitment, qoneway.Receiver.CheckDecommitment,
      hrg, hrY, zexp_ofNat]
    simp
  · rw [eC', eT']
    show (rsa.Group.Exp c.g.N c.Y (a * b % c.g.Q) * rsa.Group.Exp c.g.N o c.g.Q) % c.g.N =
      (rsa.Group.Exp c.g.N B a *
        rsa.Group.Exp c.g.N
          (rsa.Group.Mul c.g.N
            (rsa.Group.Mul c.g.N o (rsa.Group.Inv c.g.N (rsa.Group.Exp c.g.N u a)))
            (rsa.Group.Inv c.g.N (rsa.Group.Exp c.g.N c.Y (a * b / c.g.Q)))) c.g.Q) % c.g.N
    apply (ZMod.natCast_eq_natCast_iff' _ _ _).mp
    have hBcast : ((B : ℕ) : ZMod c.g.N) =
        (c.Y : ZMod c.g.N) ^ b * (u : ZMod c.g.N) ^ c.g.Q := by
      rw [hB]
      unfold qoneway.Committer.computeCommitment qoneway.RSABased.Homomorphism
      rw [zexp_ofNat, natCast_groupMul, natCast_groupExp, natCast_groupExp]
    have hui := groupInv_mul_cancel c.g.N (rsa.Group.Exp c.g.N u a) hN
      (coprime_mod_left (Nat.Coprime.pow_left a hu))
    have hyi := groupInv_mul_cancel c.g.N (rsa.Group.Exp c.g.N c.Y (a * b / c.g.Q)) hN
      (coprime_mod_left (Nat.Coprime.pow_left (a * b / c.g.Q) hY))
    rw [natCast_groupExp] at hui hyi
    have hab : a * b = a * b % c.g.Q + a * b / c.g.Q * c.g.Q :=
      (Nat.mod_add_div' (a * b) c.g.Q).symm
    have core := zmod_mult_core (c.Y : ZMod c.g.N) (u : ZMod c.g.N) (o : ZMod c.g.N)
      ((rsa.Group.Inv c.g.N (rsa.Group.Exp c.g.N u a) : ℕ) : ZMod c.g.N)
      ((rsa.Group.Inv c.g.N (rsa.Group.Exp c.g.N c.Y (a * b / c.g.Q)) : ℕ) : ZMod c.g.N)
      (a * b % c.g.Q) (a * b / c.g.Q) c.g.Q a b hab hui hyi
    rw [Nat.cast_mul, Nat.cast_mul, natCast_groupExp, natCast_groupExp,
      natCast_groupExp, natCast_groupExp, hBcast, natCast_groupMul,
      natCast_groupMul]
    exact core

/-- Witness for C2 at `N = 35`, `Q = 5`, `Y = 2`, `a = 3`, `b = 4`, `u = 3`,
`o = 2`, with `B = 3` the commitment to `b` under blinding `u`. -/
theorem getCommitmentToMultiplication_spec_witness :
    ((({ g := ⟨35, 5⟩, Y := 2, committedValue := none, r := none } :
        qoneway.Committer).GetCommitmentToMultiplication ((3 : ℕ) : ℤ)
        ((4 : ℕ) : ℤ) 3 2).1.2.1 = 2) ∧
    ((({ g := ⟨35, 5⟩, Y := 2, x := 0, commitment := none } :
        qoneway.Receiver).SetCommitment
        ((({ g := ⟨35, 5⟩, Y := 2, committedValue := none, r := none } :
          qoneway.Committer).GetCommitmentToMultiplication ((3 : ℕ) : ℤ)
          ((4 : ℕ) : ℤ) 3 2).1.1)).CheckDecommitment 2
        ((3 * 4 % 5 : ℕ) : ℤ) = true) ∧
    ((({ g := ⟨35, 5⟩, Y := 2, committedValue := none, r := none } :
        qoneway.Committer).GetCommitmentToMultiplication ((3 : ℕ) : ℤ)
        ((4 : ℕ) : ℤ) 3 2).1.1 =
      rsa.Group.Mul 35 (rsa.Group.Exp 35 3 3)
        (qoneway.RSABased.Homomorphism ⟨35, 5⟩
          ((({ g := ⟨35, 5⟩, Y := 2, committedValue := none, r := none } :
            qoneway.Committer).GetCommitmentToMultiplication ((3 : ℕ) : ℤ)
            ((4 : ℕ) : ℤ) 3 2).1.2.2))) :=
  getCommitmentToMultiplication_spec
    { g := ⟨35, 5⟩, Y := 2, committedValue := none, r := none }
    { g := ⟨35, 5⟩, Y := 2, x := 0, commitment := none }
    rfl rfl 3 4 3 2 3 (by decide) (by decide) (by decide) (by decide)
    (by decide) (by decide) rfl

theorem df_check_side (n g h a rr r1 r21 ch : ℕ) :
    ((g ^ r1 * h ^ r21 % n) * ((g ^ a * h ^ rr % n) ^ ch % n)) % n =
      g ^ (ch * a + r1) * h ^ (ch * rr + r21) % n := by
  apply (ZMod.natCast_eq_natCast_iff' _ _ n).mp
  push_cast [ZMod.natCast_mod]
  ring

/-- C1: equality-proof completeness.  Two committers hold the same value (under
possibly different moduli), the receivers hold the honest commitments, the
prover's random data and responses are computed honestly, and the randomness
lies in the ranges drawn by `GetProofRandomData` / `GetChallenge`.  Then
`Verify` accepts, whether the challenge was stored by `SetChallenge`
(externally supplied) or drawn by `GetChallenge` (interactive). -/
theorem equality_proof_completeness
    (c1 c2 : df.Committer) (rv1 rv2 : df.Receiver) (css : ℕ)
    (r1 r21 r22 ch : ℕ) (t1 t2 : ℕ) (p1 : df.EqualityProver)
    (s1 s21 s22 : ℕ)
    (hsame : c1.committedValue = c2.committedValue)
    (h1n : rv1.n = c1.n) (h1G : rv1.G = c1.G) (h1H : rv1.H = c1.H)
    (h2n : rv2.n = c2.n) (h2G : rv2.G = c2.G) (h2H : rv2.H = c2.H)
    (hC1 : rv1.Commitment = c1.ComputeCommit c1.committedValue c1.r)
    (hC2 : rv2.Commitment = c2.ComputeCommit c2.committedValue c2.r)
    (hr1 : r1 < 2 ^ (Nat.size c1.n + css) * c1.T)
    (hr21 : r21 < 2 ^ (c1.B + 2 * Nat.size c1.n + css))
    (hr22 : r22 < 2 ^ (c1.B + 2 * Nat.size c1.n + css))
    (hch : ch < 2 ^ css)
    (hprd : (df.NewEqualityProver c1 c2 css).GetProofRandomData r1 r21 r22 =
      ((t1, t2), p1))
    (hpd : p1.GetProofData ch = some (s1, s21, s22)) :
    ((((df.NewEqualityVerifier rv1 rv2 css).SetProofRandomData t1 t2).SetChallenge
        ch).Verify s1 s21 s22 = some true) ∧
    ((((df.NewEqualityVerifier rv1 rv2 css).SetProofRandomData t1 t2).GetChallenge
        ch).2.Verify s1 s21 s22 = some true) := by
  unfold df.NewEqualityProver df.EqualityProver.GetProofRandomData at hprd
  rw [Prod.mk.injEq, Prod.mk.injEq] at hprd
  obtain ⟨⟨ht1, ht2⟩, hp1⟩ := hprd
  subst ht1
  subst ht2
  subst hp1
  unfold df.EqualityProver.GetProofData df.Committer.GetDecommitMsg at hpd
  rw [Option.some.injEq, Prod.mk.injEq, Prod.mk.injEq] at hpd
  obtain ⟨hs1, hs21, hs22⟩ := hpd
  subst hs1
  subst hs21
  subst hs22
  have key1 : c1.ComputeCommit r1 r21 * (rv1.Commitment ^ ch % rv1.n) % rv1.n =
      rv1.ComputeCommit (ch * c1.committedValue + r1) (ch * c1.r + r21) := by
    rw [h1n, hC1]
    unfold df.Committer.ComputeCommit df.Receiver.ComputeCommit
    rw [h1n, h1G, h1H]
    exact df_check_side c1.n c1.G c1.H c1.committedValue c1.r r1 r21 ch
  have key2 : c2.ComputeCommit r1 r22 * (rv2.Commitment ^ ch % rv2.n) % rv2.n =
      rv2.ComputeCommit (ch * c1.committedValue + r1) (ch * c2.r + r22) := by
    rw [h2n, hC2, hsame]
    unfold df.Committer.ComputeCommit df.Receiver.ComputeCommit
    rw [h2n, h2G, h2H]
    exact df_check_side c2.n c2.G c2.H c2.committedValue c2.r r1 r22 ch
  constructor
  · unfold df.NewEqualityVerifier df.EqualityVerifier.SetProofRandomData
      df.EqualityVerifier.SetChallenge df.EqualityVerifier.Verify
    simp only [key1, key2, beq_self_eq_true, Bool.and_self]
  · unfold df.NewEqualityVerifier df.EqualityVerifier.SetProofRandomData
      df.EqualityVerifier.GetChallenge df.EqualityVerifier.Verify
    simp only [key1, key2, beq_self_eq_true, Bool.and_self]

/-- Witness for C1: a full honest transcript over moduli `35` and `33` with
shared committed value `4`, challenge-space size `2` and challenge `3`. -/
theorem equality_proof_completeness_witness :
    ((((df.NewEqualityVerifier ⟨35, 2, 3, 3⟩ ⟨33, 2, 5, 25⟩
        2).SetProofRandomData 19 13).SetChallenge 3).Verify 17 22 27 =
      some true) ∧
    ((((df.NewEqualityVerifier ⟨35, 2, 3, 3⟩ ⟨33, 2, 5, 25⟩
        2).SetProofRandomData 19 13).GetChallenge 3).2.Verify 17 22 27 =
      some true) :=
  equality_proof_completeness
    ⟨35, 2, 3, 1, 1, 4, 5⟩ ⟨33, 2, 5, 1, 1, 4, 6⟩
    ⟨35, 2, 3, 3⟩ ⟨33, 2, 5, 25⟩ 2 5 7 9 3 19 13
    ⟨⟨35, 2, 3, 1, 1, 4, 5⟩, ⟨33, 2, 5, 1, 1, 4, 6⟩, 2, some 5, some 7, some 9⟩
    17 22 27 rfl rfl rfl rfl rfl rfl rfl rfl rfl
    (by
      show (5 : ℕ) < 2 ^ (Nat.size 35 + 2) * 1
      have h := Nat.lt_size_self 35
      have h2 : (2 : ℕ) ^ Nat.size 35 ≤ 2 ^ (Nat.size 35 + 2) :=
        Nat.pow_le_pow_right (by norm_num) (by omega)
      omega)
    (by
      show (7 : ℕ) < 2 ^ (1 + 2 * Nat.size 35 + 2)
      have h := Nat.lt_size_self 35
      have h2 : (2 : ℕ) ^ Nat.size 35 ≤ 2 ^ (1 + 2 * Nat.size 35 + 2) :=
        Nat.pow_le_pow_right (by norm_num) (by omega)
      omega)
    (by
      show (9 : ℕ) < 2 ^ (1 + 2 * Nat.size 35 + 2)
      have h := Nat.lt_size_self 35
      have h2 : (2 : ℕ) ^ Nat.size 35 ≤ 2 ^ (1 + 2 * Nat.size 35 + 2) :=
        Nat.pow_le_pow_right (by norm_num) (by omega)
      omega)
    (by norm_num) rfl rfl
